import Mathlib

/-!
Verification of the job completer subsystem of the `river` job queue.

The sources provide the sqlc-generated SQL layer (`JobSetCompleteIfRunningMany`,
`JobSetStateIfRunning` over the `river_job` table) together with the completer's
test suite.  The SQL layer is embedded below directly from the query texts; a
database is a list of `river_job` rows and each query becomes a pure function
from a table (and the query's parameters) to the updated table and returned
rows.  The completer implementation itself (retry loop and the inline, async
and batch variants) is not among the sources, so those parts are modelled from
the specification, as indicated on each definition.
-/

/-- The `river_job_state` enumeration of the `river_job` table. -/
inductive RiverJobState where
  | available
  | cancelled
  | completed
  | discarded
  | pending
  | retryable
  | running
  | scheduled
deriving DecidableEq, Repr

/-- One row of the `river_job` table, restricted to the columns that the
completer queries read or write.  Timestamps are natural numbers, the jsonb
`metadata` object is represented by its list of keys (the queries only apply
the key-existence operator to it), `errors` keeps its jsonb payloads as opaque
strings and `unique_key` is a nullable opaque string. -/
structure RiverJob where
  id : Int
  state : RiverJobState
  finalizedAt : Option Nat
  errors : List String
  maxAttempts : Int
  metadata : List String
  scheduledAt : Nat
  uniqueKey : Option String
deriving DecidableEq, Repr

/-- Parameters of the `JobSetStateIfRunning` query, mirroring the generated Go
struct `JobSetStateIfRunningParams`. -/
structure JobSetStateIfRunningParams where
  state : RiverJobState
  id : Int
  finalizedAtDoUpdate : Bool
  finalizedAt : Option Nat
  errorDoUpdate : Bool
  error : String
  maxAttemptsUpdate : Bool
  maxAttempts : Int
  scheduledAtDoUpdate : Bool
  scheduledAt : Nat
deriving DecidableEq, Repr

/-- The `should_cancel` condition computed by the `job_to_update` CTE of
`JobSetStateIfRunning`:
`$1::river_job_state IN ('retryable', 'scheduled') AND metadata ? 'cancel_attempted_at'`. -/
def shouldCancel (target : RiverJobState) (j : RiverJob) : Prop :=
  (target = RiverJobState.retryable ∨ target = RiverJobState.scheduled) ∧
    "cancel_attempted_at" ∈ j.metadata

instance (target : RiverJobState) (j : RiverJob) : Decidable (shouldCancel target j) := by
  unfold shouldCancel
  infer_instance

/-- The per-row effect of the `updated_job` CTE of `JobSetStateIfRunning`,
column by column: the five `CASE` expressions for `state`, `finalized_at`,
`errors`, `max_attempts`, `scheduled_at` and `unique_key`.  `now` stands for
the SQL `now()`. -/
def jobSetStateIfRunningUpdate (now : Nat) (p : JobSetStateIfRunningParams) (j : RiverJob) :
    RiverJob :=
  { j with
    state :=
      if shouldCancel p.state j then RiverJobState.cancelled else p.state
    finalizedAt :=
      if shouldCancel p.state j then some now
      else if p.finalizedAtDoUpdate then p.finalizedAt
      else j.finalizedAt
    errors :=
      if p.errorDoUpdate then j.errors ++ [p.error] else j.errors
    maxAttempts :=
      if ¬ shouldCancel p.state j ∧ p.maxAttemptsUpdate then p.maxAttempts else j.maxAttempts
    scheduledAt :=
      if ¬ shouldCancel p.state j ∧ p.scheduledAtDoUpdate then p.scheduledAt else j.scheduledAt
    uniqueKey :=
      if (p.state = RiverJobState.cancelled ∨ p.state = RiverJobState.discarded) ∨
          shouldCancel p.state j then none
      else j.uniqueKey }

/-- Per-row table effect of `JobSetStateIfRunning`: a row is updated only when
it is the row named by id and its state is `running` (the
`WHERE river_job.id = job_to_update.id AND river_job.state = 'running'` of the
`updated_job` CTE). -/
def jobSetStateIfRunningRow (now : Nat) (p : JobSetStateIfRunningParams) (j : RiverJob) :
    RiverJob :=
  if j.id = p.id ∧ j.state = RiverJobState.running then jobSetStateIfRunningUpdate now p j
  else j

/-- Row returned by `JobSetStateIfRunning` for the row found by id: the updated
row when the update fired (the row was `running`), and the unchanged row
otherwise (the query's trailing
`SELECT ... WHERE id = $2 AND id NOT IN (SELECT id FROM updated_job) UNION SELECT ... FROM updated_job`). -/
def jobSetStateIfRunningRet (now : Nat) (p : JobSetStateIfRunningParams)
    (found : Option RiverJob) : Option RiverJob :=
  match found with
  | some j =>
      if j.state = RiverJobState.running then some (jobSetStateIfRunningUpdate now p j)
      else some j
  | none => none

/-- The `JobSetStateIfRunning` query: the table after the conditional update,
and the returned row — the updated row when the update fired, the unchanged
row with that id otherwise, or nothing when no such row exists. -/
def jobSetStateIfRunning (now : Nat) (table : List RiverJob)
    (p : JobSetStateIfRunningParams) : List RiverJob × Option RiverJob :=
  (table.map (jobSetStateIfRunningRow now p),
    jobSetStateIfRunningRet now p (table.find? (fun j => j.id == p.id)))

/-- The per-row effect of the `updated_job` CTE of `JobSetCompleteIfRunningMany`:
`SET finalized_at = job_to_update.finalized_at, state = 'completed'`. -/
def jobSetCompleteIfRunningManyUpdate (finalizedAt : Nat) (j : RiverJob) : RiverJob :=
  { j with state := RiverJobState.completed, finalizedAt := some finalizedAt }

/-- Per-row table effect of `JobSetCompleteIfRunningMany`: a row is updated
exactly when its id is named in the batch — the zip of the query's
`$1::bigint[]` and `$2::timestamptz[]` arrays — and its state is `running`
(the `job_to_update` CTE). -/
def jobSetCompleteIfRunningManyRow (batch : List (Int × Nat)) (j : RiverJob) : RiverJob :=
  match batch.find? (fun q => q.1 == j.id) with
  | some q =>
      if j.state = RiverJobState.running then jobSetCompleteIfRunningManyUpdate q.2 j else j
  | none => j

/-- Table effect of the `JobSetCompleteIfRunningMany` query. -/
def jobSetCompleteIfRunningManyTable (table : List RiverJob) (batch : List (Int × Nat)) :
    List RiverJob :=
  table.map (jobSetCompleteIfRunningManyRow batch)

/-- Row returned by `JobSetCompleteIfRunningMany` for one batch entry: the
updated row when the entry's row was running, the unchanged row otherwise,
nothing when the id has no row in the table. -/
def jobSetCompleteIfRunningManyRet (table : List RiverJob) (q : Int × Nat) : Option RiverJob :=
  match table.find? (fun j => j.id == q.1) with
  | some j =>
      if j.state = RiverJobState.running then some (jobSetCompleteIfRunningManyUpdate q.2 j)
      else some j
  | none => none

/-- Rows returned by the `JobSetCompleteIfRunningMany` query, its trailing
`SELECT ... WHERE id IN (SELECT id FROM job_to_finalized_at EXCEPT SELECT id FROM updated_job) UNION SELECT ... FROM updated_job`.
SQL `UNION` fixes no row order, so the rows are listed here in batch order. -/
def jobSetCompleteIfRunningManyRows (table : List RiverJob) (batch : List (Int × Nat)) :
    List RiverJob :=
  batch.filterMap (jobSetCompleteIfRunningManyRet table)

/-- A `river_job` row in the `running` state with empty metadata, as inserted by
the test factory with `JobOpts{State: running}`. -/
def mkRunningJob (i : Int) : RiverJob :=
  { id := i
    state := RiverJobState.running
    finalizedAt := none
    errors := []
    maxAttempts := 25
    metadata := []
    scheduledAt := 0
    uniqueKey := none }

/-- A job row that has already finished: state `completed`, no longer `running`. -/
def c1CompletedJob : RiverJob :=
  { mkRunningJob 1 with state := RiverJobState.completed, finalizedAt := some 3 }

/-- Modelled from the spec: the executor error taxonomy of the completer, whose
implementation is not among the sources.  `canceled` is a canceled request
context, `closedPool` a closed connection pool, and every other error is
`transient` with an opaque message. -/
inductive ExecError where
  | transient (msg : String)
  | canceled
  | closedPool
deriving DecidableEq, Repr

/-- Modelled from the spec: the retry classifier.  Terminal errors are a
canceled context or a closed connection pool; everything else is transient and
subject to bounded retry. -/
def ExecError.isTerminal : ExecError → Bool
  | ExecError.transient _ => false
  | ExecError.canceled => true
  | ExecError.closedPool => true

/-- Modelled from the spec: the retry budget N = 10 of the backoff loop
(`numRetries` in the completer, which is not among the sources). -/
def numRetries : Nat := 10

/-- An executor closure performing one `JobSetStateIfRunningMany` call, as seen
by the retry loop: given the attempt number (the tests' mocks behave
differently per attempt) and the current database, it yields the new database
and either the returned rows or an error.  A failing call leaves the database
unchanged in every scenario modelled here. -/
def JobExecutor : Type :=
  Nat → List RiverJob → List RiverJob × Except ExecError (List RiverJob)

/-- Modelled from the spec: the bounded retry loop, executing the closure while
`fuel` attempts remain, `attempt` being the number of the next attempt.
Success and terminal errors short-circuit; a transient error is retried until
the budget is spent, and the surfaced error is then the last transient error.
Returns the final database, the number of the last attempt executed and the
final result.  (The backoff sleeps carry no information in this embedding.) -/
def retryAttempts (exec : JobExecutor) : Nat → Nat → List RiverJob →
    List RiverJob × Nat × Except ExecError (List RiverJob)
  | attempt, 0, db => (db, attempt - 1, Except.error (ExecError.transient "no attempt"))
  | attempt, fuel + 1, db =>
    match exec attempt db with
    | (db', Except.ok rows) => (db', attempt, Except.ok rows)
    | (db', Except.error e) =>
      if e.isTerminal then (db', attempt, Except.error e)
      else
        match fuel with
        | 0 => (db', attempt, Except.error e)
        | _ + 1 => retryAttempts exec (attempt + 1) fuel db'

/-- Modelled from the spec: `withRetries`, running the closure up to
`numRetries` times starting at attempt 1. -/
def withRetries (exec : JobExecutor) (db : List RiverJob) :
    List RiverJob × Nat × Except ExecError (List RiverJob) :=
  retryAttempts exec 1 numRetries db

/-- Observable outcome of one inline `JobSetStateIfRunning` call: the database
afterwards, how many executor attempts ran, the error surfaced to the caller
(if any) and the batched messages sent on the subscriber channel. -/
structure InlineCallResult where
  db : List RiverJob
  attempts : Nat
  err : Option ExecError
  emitted : List (List RiverJob)
deriving DecidableEq, Repr

/-- Modelled from the spec: the inline completer's `JobSetStateIfRunning` runs
the retry loop synchronously on the caller and returns the resulting error.
On success the resulting rows are emitted as one batched message on the
subscriber channel (no message when there are no rows); on error nothing is
emitted. -/
def inlineJobSetStateIfRunning (exec : JobExecutor) (db : List RiverJob) : InlineCallResult :=
  match withRetries exec db with
  | (db', n, Except.ok rows) =>
      { db := db', attempts := n, err := none
        emitted := if rows.isEmpty then [] else [rows] }
  | (db', n, Except.error e) =>
      { db := db', attempts := n, err := some e, emitted := [] }

/-- The real executor for one `Completed(id, finalizedAt)` transition: a
singleton-batch `JobSetCompleteIfRunningMany` call against the database. -/
def completeExec (id : Int) (finalizedAt : Nat) : JobExecutor := fun _ db =>
  (jobSetCompleteIfRunningManyTable db [(id, finalizedAt)],
    Except.ok (jobSetCompleteIfRunningManyRows db [(id, finalizedAt)]))

/-- An executor that fails with a transient error on the first `failures`
attempts and then behaves as the real `completeExec`, as in the tests'
`maybeError` mock. -/
def flakyCompleteExec (failures : Nat) (msg : String) (id : Int) (finalizedAt : Nat) :
    JobExecutor := fun attempt db =>
  if attempt ≤ failures then (db, Except.error (ExecError.transient msg))
  else completeExec id finalizedAt attempt db

/-- One transition accepted by the completer, together with the behavior of the
executor while persisting it: `script attempt = some e` makes that attempt fail
with `e`, `none` lets the real `Completed` executor run. -/
structure AcceptedTransition where
  id : Int
  finalizedAt : Nat
  script : Nat → Option ExecError

/-- Executor derived from an accepted transition's script. -/
def scriptedExec (a : AcceptedTransition) : JobExecutor := fun attempt db =>
  match a.script attempt with
  | some e => (db, Except.error e)
  | none => completeExec a.id a.finalizedAt attempt db

/-- Modelled from the spec: the drain performed by `Stop`.  Every accepted
transition is processed (here: through the inline retry-wrapped executor, one
after the other) before `Stop` returns; the result pairs each accepted job id
with the outcome of its completion. -/
def processAccepted (db : List RiverJob) :
    List AcceptedTransition → List RiverJob × List (Int × InlineCallResult)
  | [] => (db, [])
  | a :: rest =>
    let r := inlineJobSetStateIfRunning (scriptedExec a) db
    let tail := processAccepted r.db rest
    (tail.1, (a.id, r) :: tail.2)

/-- A message carrying the given job id was emitted during the outcome. -/
def outcomeEmits (r : InlineCallResult) (id : Int) : Prop :=
  ∃ msg ∈ r.emitted, ∃ row ∈ msg, row.id = id

/-- The database still holds a row with the given id in the `running` state. -/
def stillRunning (db : List RiverJob) (id : Int) : Prop :=
  ∃ j ∈ db, j.id = id ∧ j.state = RiverJobState.running

/-- State of the async (bounded-concurrency) completer: the job ids whose
executor calls are in flight, the log of accepted transitions with the error
value returned to the accepting caller, and the ids whose calls finished. -/
structure AsyncState where
  inFlight : List Int
  accepted : List (Int × Option ExecError)
  finished : List Int
deriving DecidableEq, Repr

/-- The empty starting state of the async completer. -/
def AsyncState.mkInit : AsyncState :=
  { inFlight := [], accepted := [], finished := [] }

/-- Labels of the async completer's steps. -/
inductive AsyncLabel where
  | accept (id : Int)
  | finish (id : Int)
deriving DecidableEq, Repr

/-- Modelled from the spec: the async variant holds a counting semaphore of
`c` permits.  `JobSetStateIfRunning` acquires one permit — blocking the caller
while none are available, so an `accept` step exists only when fewer than `c`
calls are in flight — returns `nil` to the caller, and spawns the executor
call; a `finish` step ends one in-flight call and releases its permit. -/
inductive AsyncStep (c : Nat) : AsyncState → AsyncLabel → AsyncState → Prop where
  | accept (s : AsyncState) (id : Int) (h : s.inFlight.length < c) :
      AsyncStep c s (AsyncLabel.accept id)
        { s with inFlight := id :: s.inFlight, accepted := s.accepted ++ [(id, none)] }
  | finish (s : AsyncState) (id : Int) (h : id ∈ s.inFlight) :
      AsyncStep c s (AsyncLabel.finish id)
        { s with inFlight := s.inFlight.erase id, finished := s.finished ++ [id] }

/-- States of the async completer reachable from the empty state. -/
inductive AsyncReachable (c : Nat) : AsyncState → Prop where
  | base : AsyncReachable c AsyncState.mkInit
  | step {s s' : AsyncState} {l : AsyncLabel} :
      AsyncReachable c s → AsyncStep c s l s' → AsyncReachable c s'

/-- State of the batch (coalescing) completer's accept path: the pending set
mapping job ids to their latest transition, and the backlog limit. -/
structure BatchState where
  pending : List (Int × JobSetStateIfRunningParams)
  maxBacklog : Nat

/-- Insert-or-overwrite of the pending set, keyed by job id (last write wins
within one accumulation window). -/
def upsertPending (pending : List (Int × JobSetStateIfRunningParams)) (id : Int)
    (tr : JobSetStateIfRunningParams) : List (Int × JobSetStateIfRunningParams) :=
  if pending.any (fun q => q.1 == id) then
    pending.map fun q => if q.1 == id then (id, tr) else q
  else pending ++ [(id, tr)]

/-- Modelled from the spec: the batch variant's accept path.  When the pending
set has reached the backlog limit the caller parks (`none`: no return value is
produced until the backlog drains); otherwise the transition is inserted and
the call returns `nil` immediately. -/
def batchAccept (s : BatchState) (id : Int) (tr : JobSetStateIfRunningParams) :
    Option (BatchState × Option ExecError) :=
  if s.maxBacklog ≤ s.pending.length then none
  else some ({ s with pending := upsertPending s.pending id tr }, none)

/-- Lifecycle phases of a completer: `Unstarted → Running → Stopped → Running`. -/
inductive Phase where
  | unstarted
  | running
  | stopped
deriving DecidableEq, Repr

/-- Commands driving a completer through its lifecycle: `Start`, an accepted
`Completed(id, finalizedAt)` transition, `Stop`, and `ResetSubscribeChan` with
a fresh channel (channels are identified by numbers). -/
inductive CompleterCmd where
  | start
  | accept (id : Int) (finalizedAt : Nat)
  | stop
  | resetChan (ch : Nat)
deriving DecidableEq, Repr

/-- Lifecycle state of a completer: phase, the current subscribe channel, the
channels closed so far in order, the database, and the log of emitted
messages tagged with the channel they were sent on. -/
structure CompleterState where
  phase : Phase
  chan : Nat
  closedChans : List Nat
  db : List RiverJob
  emitted : List (Nat × List RiverJob)
deriving DecidableEq, Repr

/-- Modelled from the spec: one lifecycle command.  `Start` moves to `Running`
(already started is a no-op here); an accepted transition is persisted through
`JobSetCompleteIfRunningMany` and its rows are published on the current
subscribe channel; `Stop` drains and closes the subscribe channel exactly once,
moving to `Stopped`; `ResetSubscribeChan` is valid only while stopped. -/
def stepCmd (s : CompleterState) (c : CompleterCmd) : CompleterState :=
  match c with
  | CompleterCmd.start =>
      if s.phase = Phase.running then s else { s with phase := Phase.running }
  | CompleterCmd.accept id finalizedAt =>
      if s.phase = Phase.running then
        let rows := jobSetCompleteIfRunningManyRows s.db [(id, finalizedAt)]
        { s with
          db := jobSetCompleteIfRunningManyTable s.db [(id, finalizedAt)]
          emitted := if rows.isEmpty then s.emitted else s.emitted ++ [(s.chan, rows)] }
      else s
  | CompleterCmd.stop =>
      if s.phase = Phase.running then
        { s with phase := Phase.stopped, closedChans := s.closedChans ++ [s.chan] }
      else s
  | CompleterCmd.resetChan ch =>
      if s.phase = Phase.stopped then { s with chan := ch } else s

/-- Run a list of lifecycle commands. -/
def runCmds (s : CompleterState) : List CompleterCmd → CompleterState
  | [] => s
  | c :: cs => runCmds (stepCmd s c) cs

/-- Phase evolution of `stepCmd`, used to count close events independently of
the rest of the state. -/
def phaseStep (ph : Phase) (c : CompleterCmd) : Phase :=
  match c with
  | CompleterCmd.start => if ph = Phase.running then ph else Phase.running
  | CompleterCmd.accept _ _ => ph
  | CompleterCmd.stop => if ph = Phase.running then Phase.stopped else ph
  | CompleterCmd.resetChan _ => ph

/-- Number of effective `Stop` commands (those executed in the `Running`
phase) in a command list: each closes the subscribe channel once. -/
def countCloses (ph : Phase) : List CompleterCmd → Nat
  | [] => 0
  | c :: cs =>
      (if c = CompleterCmd.stop ∧ ph = Phase.running then 1 else 0) +
        countCloses (phaseStep ph c) cs

/-- Modelled from the spec: the `Cancelled(id, finalized_at, error_payload)`
transition constructor (`JobSetStateCancelled` of the `riverdriver` package,
which is not among the sources): target state `cancelled`, updating
`finalized_at` and appending the error payload. -/
def JobSetStateCancelled (id : Int) (finalizedAt : Nat) (errData : String) :
    JobSetStateIfRunningParams :=
  { state := RiverJobState.cancelled, id := id
    finalizedAtDoUpdate := true, finalizedAt := some finalizedAt
    errorDoUpdate := true, error := errData
    maxAttemptsUpdate := false, maxAttempts := 0
    scheduledAtDoUpdate := false, scheduledAt := 0 }

/-- Modelled from the spec: the `Completed(id, finalized_at)` transition
constructor (`JobSetStateCompleted` of the `riverdriver` package): target state
`completed`, updating `finalized_at`. -/
def JobSetStateCompleted (id : Int) (finalizedAt : Nat) : JobSetStateIfRunningParams :=
  { state := RiverJobState.completed, id := id
    finalizedAtDoUpdate := true, finalizedAt := some finalizedAt
    errorDoUpdate := false, error := ""
    maxAttemptsUpdate := false, maxAttempts := 0
    scheduledAtDoUpdate := false, scheduledAt := 0 }

/-- Modelled from the spec: the `Discarded(id, finalized_at, error_payload)`
transition constructor (`JobSetStateDiscarded` of the `riverdriver` package):
target state `discarded`, updating `finalized_at` and appending the error
payload. -/
def JobSetStateDiscarded (id : Int) (finalizedAt : Nat) (errData : String) :
    JobSetStateIfRunningParams :=
  { state := RiverJobState.discarded, id := id
    finalizedAtDoUpdate := true, finalizedAt := some finalizedAt
    errorDoUpdate := true, error := errData
    maxAttemptsUpdate := false, maxAttempts := 0
    scheduledAtDoUpdate := false, scheduledAt := 0 }

/-- Modelled from the spec: the `ErrorAvailable(id, scheduled_at,
error_payload)` transition constructor (`JobSetStateErrorAvailable` of the
`riverdriver` package): target state `available`, updating `scheduled_at` and
appending the error payload. -/
def JobSetStateErrorAvailable (id : Int) (scheduledAt : Nat) (errData : String) :
    JobSetStateIfRunningParams :=
  { state := RiverJobState.available, id := id
    finalizedAtDoUpdate := false, finalizedAt := none
    errorDoUpdate := true, error := errData
    maxAttemptsUpdate := false, maxAttempts := 0
    scheduledAtDoUpdate := true, scheduledAt := scheduledAt }

/-- Modelled from the spec: the `ErrorRetryable(id, scheduled_at,
error_payload)` transition constructor (`JobSetStateErrorRetryable` of the
`riverdriver` package): target state `retryable`, updating `scheduled_at` and
appending the error payload. -/
def JobSetStateErrorRetryable (id : Int) (scheduledAt : Nat) (errData : String) :
    JobSetStateIfRunningParams :=
  { state := RiverJobState.retryable, id := id
    finalizedAtDoUpdate := false, finalizedAt := none
    errorDoUpdate := true, error := errData
    maxAttemptsUpdate := false, maxAttempts := 0
    scheduledAtDoUpdate := true, scheduledAt := scheduledAt }

/-- Modelled from the spec: the `Snoozed(id, scheduled_at, max_attempts)`
transition constructor (`JobSetStateSnoozed` of the `riverdriver` package):
target state `scheduled`, updating `scheduled_at` and bumping `max_attempts`
so the snooze does not count toward the retry budget. -/
def JobSetStateSnoozed (id : Int) (scheduledAt : Nat) (maxAttempts : Int) :
    JobSetStateIfRunningParams :=
  { state := RiverJobState.scheduled, id := id
    finalizedAtDoUpdate := false, finalizedAt := none
    errorDoUpdate := false, error := ""
    maxAttemptsUpdate := true, maxAttempts := maxAttempts
    scheduledAtDoUpdate := true, scheduledAt := scheduledAt }

/-- Modelled from the spec: the `SnoozedAvailable(id, scheduled_at,
max_attempts)` transition constructor (`JobSetStateSnoozedAvailable` of the
`riverdriver` package): target state `available`, updating `scheduled_at` and
bumping `max_attempts`. -/
def JobSetStateSnoozedAvailable (id : Int) (scheduledAt : Nat) (maxAttempts : Int) :
    JobSetStateIfRunningParams :=
  { state := RiverJobState.available, id := id
    finalizedAtDoUpdate := false, finalizedAt := none
    errorDoUpdate := false, error := ""
    maxAttemptsUpdate := true, maxAttempts := maxAttempts
    scheduledAtDoUpdate := true, scheduledAt := scheduledAt }

/-- Seven running jobs, as in the `AllJobStates` test. -/
def c6Db0 : List RiverJob :=
  [mkRunningJob 1, mkRunningJob 2, mkRunningJob 3, mkRunningJob 4,
    mkRunningJob 5, mkRunningJob 6, mkRunningJob 7]

/-- One transition of each of the seven kinds, one per job, as submitted by
the `AllJobStates` test. -/
def c6Transitions : List JobSetStateIfRunningParams :=
  [JobSetStateCancelled 1 50 "e1",
    JobSetStateCompleted 2 50,
    JobSetStateDiscarded 3 50 "e3",
    JobSetStateErrorAvailable 4 60 "e4",
    JobSetStateErrorRetryable 5 60 "e5",
    JobSetStateSnoozed 6 60 10,
    JobSetStateSnoozedAvailable 7 60 10]

/-- The database after the seven transitions of `AllJobStates` have been
applied through `JobSetStateIfRunning`. -/
def c6DbFinal : List RiverJob :=
  c6Transitions.foldl (fun db p => (jobSetStateIfRunning 100 db p).1) c6Db0

/-- Starting state of the `MultipleCycles` scenario: unstarted, subscribe
channel 1, two running jobs. -/
def c7Init : CompleterState :=
  { phase := Phase.unstarted, chan := 1, closedChans := []
    db := [mkRunningJob 10, mkRunningJob 20], emitted := [] }

/-- The `MultipleCycles` command sequence: start, accept, stop, swap the
subscribe channel for channel 2, start again, accept, stop. -/
def c7Cmds : List CompleterCmd :=
  [CompleterCmd.start, CompleterCmd.accept 10 5, CompleterCmd.stop,
    CompleterCmd.resetChan 2, CompleterCmd.start, CompleterCmd.accept 20 6,
    CompleterCmd.stop]

/-- Final state of the `MultipleCycles` scenario. -/
def c7Final : CompleterState := runCmds c7Init c7Cmds

/-- An accepted `Completed` transition whose executor fails terminally
(canceled context) on every attempt. -/
def c8FailingTransition : AcceptedTransition :=
  { id := 1, finalizedAt := 5, script := fun _ => some ExecError.canceled }

/-- An accepted `Completed` transition whose executor succeeds on the first
attempt. -/
def c8OkTransition : AcceptedTransition :=
  { id := 1, finalizedAt := 5, script := fun _ => none }

/-- An accepted `Completed` transition for job id 2, whose executor succeeds
on the first attempt; in the scenario where it is used no row with id 2
exists, so the call returns zero rows. -/
def c8AbsentIdTransition : AcceptedTransition :=
  { id := 2, finalizedAt := 5, script := fun _ => none }

/-- A job row with id 3 that has already completed. -/
def c8CompletedJob : RiverJob :=
  { mkRunningJob 3 with state := RiverJobState.completed }

/-- An accepted `Completed` transition for job id 3 whose executor fails with
a transient (non-terminal) error on every attempt, exhausting the retry
budget. -/
def c8TransientTransition : AcceptedTransition :=
  { id := 3, finalizedAt := 5, script := fun _ => some (ExecError.transient "boom") }

/-- A running job whose metadata records a cancellation attempt
(`cancel_attempted_at` key present), with a unique key set. -/
def c10Job : RiverJob :=
  { mkRunningJob 1 with
    metadata := ["cancel_attempted_at"], uniqueKey := some "k", scheduledAt := 7 }

/-! ### Helper lemmas -/

/-- `find?` keyed by id commutes with mapping an id-preserving function over
the table. -/
theorem find?_map_of_id (f : RiverJob → RiverJob) (hf : ∀ r, (f r).id = r.id)
    (db : List RiverJob) (i : Int) :
    (db.map f).find? (fun r => r.id == i) = Option.map f (db.find? (fun r => r.id == i)) := by
  induction db with
  | nil => rfl
  | cons r rest ih =>
    by_cases h : r.id = i
    · rw [List.map_cons, List.find?_cons_of_pos, List.find?_cons_of_pos]
      · rfl
      · simp [h]
      · simp [hf r, h]
    · rw [List.map_cons, List.find?_cons_of_neg, List.find?_cons_of_neg, ih]
      · simp [h]
      · simp [hf r, h]

/-- The per-row update of `JobSetCompleteIfRunningMany` preserves ids. -/
theorem jobSetCompleteIfRunningManyRow_id (batch : List (Int × Nat)) (r : RiverJob) :
    (jobSetCompleteIfRunningManyRow batch r).id = r.id := by
  rw [jobSetCompleteIfRunningManyRow]
  cases batch.find? (fun q => q.1 == r.id) with
  | none => rfl
  | some q =>
    by_cases h : r.state = RiverJobState.running
    · simp [h, jobSetCompleteIfRunningManyUpdate]
    · simp [h]

/-! ### C1 -/

/-- C1 (counterexample): the claim that "every job that was no longer running
at write time is omitted from the returned sequence of rows" is false for the
SQL of `JobSetCompleteIfRunningMany`: a job that already finished (state
`completed`) and is named in the batch is returned, unchanged, by the query's
trailing `SELECT ... WHERE id IN (input EXCEPT updated) UNION updated`. -/
theorem C1_counterexample :
    c1CompletedJob.state ≠ RiverJobState.running ∧
    c1CompletedJob ∈ jobSetCompleteIfRunningManyRows [c1CompletedJob] [(1, 5)] := by
  decide

/-- C1 (amended): each per-job update of `JobSetCompleteIfRunningMany` is
applied only under the predicate `state = 'running'` — every row of the
post-update table is either an unchanged input row or the completed update of
a row that was running and named in the batch — but jobs no longer running at
write time are not omitted from the returned rows: each such job that has a
row in the table is returned unchanged. -/
theorem C1_running_predicate_rows (table : List RiverJob) (batch : List (Int × Nat)) :
    (∀ j' ∈ jobSetCompleteIfRunningManyTable table batch,
      ∃ j ∈ table, j' = j ∨
        (j.state = RiverJobState.running ∧
          ∃ q, batch.find? (fun q0 => q0.1 == j.id) = some q ∧
            j' = jobSetCompleteIfRunningManyUpdate q.2 j)) ∧
    (∀ (i : Int) (finalizedAt : Nat) (j : RiverJob), (i, finalizedAt) ∈ batch →
      table.find? (fun r => r.id == i) = some j → j.state ≠ RiverJobState.running →
      j ∈ jobSetCompleteIfRunningManyRows table batch) := by
  constructor
  · intro j' hj'
    rw [jobSetCompleteIfRunningManyTable] at hj'
    rcases List.mem_map.mp hj' with ⟨j, hj, hfj⟩
    refine ⟨j, hj, ?_⟩
    rw [jobSetCompleteIfRunningManyRow] at hfj
    rcases hq : batch.find? (fun q0 => q0.1 == j.id) with _ | q
    · left
      simp only [hq] at hfj
      exact hfj.symm
    · simp only [hq] at hfj
      by_cases hr : j.state = RiverJobState.running
      · right
        rw [if_pos hr] at hfj
        exact ⟨hr, q, hq, hfj.symm⟩
      · left
        rw [if_neg hr] at hfj
        exact hfj.symm
  · intro i finalizedAt j hmem hfind hnr
    rw [jobSetCompleteIfRunningManyRows]
    refine List.mem_filterMap.mpr ⟨(i, finalizedAt), hmem, ?_⟩
    simp [jobSetCompleteIfRunningManyRet, hfind, hnr]

/-- C1 (witness): the amended statement applied at the counterexample input. -/
theorem C1_running_predicate_rows_witness :
    c1CompletedJob ∈ jobSetCompleteIfRunningManyRows [c1CompletedJob] [(1, 5)] :=
  (C1_running_predicate_rows [c1CompletedJob] [(1, 5)]).2 1 5 c1CompletedJob
    (by decide) (by decide) (by decide)

/-! ### C5 -/

/-- C5: applying the same `JobSetStateIfRunning` transition twice is idempotent
at the row level: once the first application has moved the job out of
`running` (any target state other than `running`), the second application
fires no update — the table is unchanged and the returned row is just the row
found by id, untouched. -/
theorem C5_second_application_noop (now1 now2 : Nat) (table : List RiverJob)
    (p : JobSetStateIfRunningParams) (hstate : p.state ≠ RiverJobState.running) :
    (jobSetStateIfRunning now2 (jobSetStateIfRunning now1 table p).1 p).1 =
      (jobSetStateIfRunning now1 table p).1 ∧
    (jobSetStateIfRunning now2 (jobSetStateIfRunning now1 table p).1 p).2 =
      jobSetStateIfRunningRet now2 p
        (((jobSetStateIfRunning now1 table p).1).find? (fun j => j.id == p.id)) ∧
    (∀ j, ((jobSetStateIfRunning now1 table p).1).find? (fun j0 => j0.id == p.id) = some j →
      jobSetStateIfRunningRet now2 p (some j) = some j) := by
  have hupd : ∀ (now : Nat) (j : RiverJob),
      (jobSetStateIfRunningUpdate now p j).state ≠ RiverJobState.running := by
    intro now j
    by_cases hsc : shouldCancel p.state j <;> simp [jobSetStateIfRunningUpdate, hsc, hstate]
  have hafter : ∀ j ∈ (jobSetStateIfRunning now1 table p).1,
      j.state = RiverJobState.running → ¬ j.id = p.id := by
    intro j hj hr
    rcases List.mem_map.mp hj with ⟨j0, _, hfj⟩
    rw [jobSetStateIfRunningRow] at hfj
    by_cases hc : j0.id = p.id ∧ j0.state = RiverJobState.running
    · rw [if_pos hc] at hfj
      exact absurd (hfj ▸ hr) (hupd now1 j0)
    · rw [if_neg hc] at hfj
      subst hfj
      intro hid
      exact hc ⟨hid, hr⟩
  refine ⟨?_, rfl, ?_⟩
  · show List.map _ _ = _
    conv_rhs => rw [← List.map_id ((jobSetStateIfRunning now1 table p).1)]
    refine List.map_congr_left ?_
    intro j hj
    have hc : ¬ (j.id = p.id ∧ j.state = RiverJobState.running) := by
      rintro ⟨hid, hr⟩
      exact hafter j hj hr hid
    simp [jobSetStateIfRunningRow, hc]
  · intro j hq
    have hid : j.id = p.id := by
      have := List.find?_some hq
      simpa using this
    have hj := List.mem_of_find?_eq_some hq
    have hnr : ¬ j.state = RiverJobState.running := fun hr => hafter j hj hr hid
    simp [jobSetStateIfRunningRet, hnr]

/-- C5 (witness): the idempotence statement at a concrete job and transition. -/
theorem C5_second_application_noop_witness :
    (jobSetStateIfRunning 9 (jobSetStateIfRunning 8 [mkRunningJob 1]
        (JobSetStateCompleted 1 5)).1 (JobSetStateCompleted 1 5)).1 =
      (jobSetStateIfRunning 8 [mkRunningJob 1] (JobSetStateCompleted 1 5)).1 :=
  (C5_second_application_noop 8 9 [mkRunningJob 1] (JobSetStateCompleted 1 5) (by decide)).1

/-! ### C6 -/

/-- C6: seven running jobs, one transition of each of the seven kinds; after
the transitions are applied through `JobSetStateIfRunning` the database states
are cancelled, completed, discarded, available, retryable, scheduled and
available respectively. -/
theorem C6_all_job_states :
    c6DbFinal.map RiverJob.state =
      [RiverJobState.cancelled, RiverJobState.completed, RiverJobState.discarded,
        RiverJobState.available, RiverJobState.retryable, RiverJobState.scheduled,
        RiverJobState.available] := by
  decide

/-! ### C10 -/

/-- C10: for a running job whose metadata has the `cancel_attempted_at` key, a
`JobSetStateIfRunning` call targeting `retryable` or `scheduled` instead
cancels the job: state becomes `cancelled`, `finalized_at` is set to now,
`unique_key` is nulled, and `max_attempts` and `scheduled_at` stay unchanged
even when the parameters request updates for them. -/
theorem C10_cancel_attempted_overrides (now : Nat) (table : List RiverJob)
    (p : JobSetStateIfRunningParams) (j : RiverJob)
    (hfind : table.find? (fun r => r.id == p.id) = some j)
    (hrun : j.state = RiverJobState.running)
    (hmeta : "cancel_attempted_at" ∈ j.metadata)
    (htarget : p.state = RiverJobState.retryable ∨ p.state = RiverJobState.scheduled) :
    (jobSetStateIfRunning now table p).2 = some (jobSetStateIfRunningUpdate now p j) ∧
    (jobSetStateIfRunningUpdate now p j).state = RiverJobState.cancelled ∧
    (jobSetStateIfRunningUpdate now p j).finalizedAt = some now ∧
    (jobSetStateIfRunningUpdate now p j).uniqueKey = none ∧
    (jobSetStateIfRunningUpdate now p j).maxAttempts = j.maxAttempts ∧
    (jobSetStateIfRunningUpdate now p j).scheduledAt = j.scheduledAt := by
  have hsc : shouldCancel p.state j := ⟨htarget, hmeta⟩
  refine ⟨?_, ?_, ?_, ?_, ?_, ?_⟩
  · simp [jobSetStateIfRunning, jobSetStateIfRunningRet, hfind, hrun]
  all_goals simp [jobSetStateIfRunningUpdate, hsc]

/-- C10 (witness): a running job with a recorded cancellation attempt,
receiving a `Snoozed` transition (target `scheduled`, with `max_attempts` and
`scheduled_at` updates requested), is cancelled instead. -/
theorem C10_cancel_attempted_overrides_witness :
    (jobSetStateIfRunning 42 [c10Job] (JobSetStateSnoozed 1 60 10)).2 =
      some (jobSetStateIfRunningUpdate 42 (JobSetStateSnoozed 1 60 10) c10Job) ∧
    (jobSetStateIfRunningUpdate 42 (JobSetStateSnoozed 1 60 10) c10Job).state =
      RiverJobState.cancelled ∧
    (jobSetStateIfRunningUpdate 42 (JobSetStateSnoozed 1 60 10) c10Job).finalizedAt = some 42 ∧
    (jobSetStateIfRunningUpdate 42 (JobSetStateSnoozed 1 60 10) c10Job).uniqueKey = none ∧
    (jobSetStateIfRunningUpdate 42 (JobSetStateSnoozed 1 60 10) c10Job).maxAttempts =
      c10Job.maxAttempts ∧
    (jobSetStateIfRunningUpdate 42 (JobSetStateSnoozed 1 60 10) c10Job).scheduledAt =
      c10Job.scheduledAt :=
  C10_cancel_attempted_overrides 42 [c10Job] (JobSetStateSnoozed 1 60 10) c10Job
    (by decide) (by decide) (by decide) (by decide)

/-! ### Retry loop lemmas -/

/-- The retry loop never runs an attempt numbered past `attempt + fuel - 1`. -/
theorem retryAttempts_attempt_le (exec : JobExecutor) :
    ∀ (fuel attempt : Nat) (db : List RiverJob),
      (retryAttempts exec attempt fuel db).2.1 ≤ attempt + fuel - 1 := by
  intro fuel
  induction fuel with
  | zero =>
    intro attempt db
    simp [retryAttempts]
  | succ f ih =>
    intro attempt db
    rcases hx : exec attempt db with ⟨db', r⟩
    rcases r with e | rows
    · simp only [retryAttempts, hx]
      by_cases ht : e.isTerminal = true
      · rw [if_pos ht]
        show attempt ≤ attempt + (f + 1) - 1
        omega
      · rw [if_neg ht]
        rcases f with _ | f2
        · show attempt ≤ attempt + (0 + 1) - 1
          omega
        · have h := ih (attempt + 1) db'
          show (retryAttempts exec (attempt + 1) (f2 + 1) db').2.1 ≤ attempt + (f2 + 1 + 1) - 1
          omega
    · simp only [retryAttempts, hx]
      show attempt ≤ attempt + (f + 1) - 1
      omega

/-- A terminal error stops the retry loop at the current attempt. -/
theorem retryAttempts_terminal (exec : JobExecutor) (attempt fuel : Nat)
    (db db' : List RiverJob) (e : ExecError)
    (hx : exec attempt db = (db', Except.error e)) (he : e.isTerminal = true) :
    retryAttempts exec attempt (fuel + 1) db = (db', attempt, Except.error e) := by
  simp [retryAttempts, hx, he]

/-- A successful call stops the retry loop at the current attempt. -/
theorem retryAttempts_ok (exec : JobExecutor) (attempt fuel : Nat)
    (db db' : List RiverJob) (rows : List RiverJob)
    (hx : exec attempt db = (db', Except.ok rows)) :
    retryAttempts exec attempt (fuel + 1) db = (db', attempt, Except.ok rows) := by
  simp [retryAttempts, hx]

/-- Transient failures that leave the database unchanged are skipped by the
retry loop: after `k` such failures the loop continues at attempt
`attempt + k` with `k` units of budget spent. -/
theorem retryAttempts_skip (exec : JobExecutor) (msg : String) :
    ∀ (k attempt fuel : Nat) (db : List RiverJob), k < fuel →
      (∀ i, i < k → exec (attempt + i) db = (db, Except.error (ExecError.transient msg))) →
      retryAttempts exec attempt fuel db = retryAttempts exec (attempt + k) (fuel - k) db := by
  intro k
  induction k with
  | zero =>
    intro attempt fuel db _ _
    simp
  | succ k ih =>
    intro attempt fuel db hk hfail
    rcases fuel with _ | f
    · omega
    rcases f with _ | f2
    · omega
    have h0 : exec attempt db = (db, Except.error (ExecError.transient msg)) := by
      have h := hfail 0 (Nat.succ_pos k)
      simpa using h
    have step : retryAttempts exec attempt (f2 + 1 + 1) db =
        retryAttempts exec (attempt + 1) (f2 + 1) db := by
      simp [retryAttempts, h0, ExecError.isTerminal]
    rw [step]
    have hrec := ih (attempt + 1) (f2 + 1) db (by omega) (fun i hi => by
      have h := hfail (i + 1) (by omega)
      have harith : attempt + 1 + i = attempt + (i + 1) := by omega
      rw [harith]
      exact h)
    have e1 : attempt + (k + 1) = attempt + 1 + k := by omega
    have e2 : f2 + 1 + 1 - (k + 1) = f2 + 1 - k := by omega
    rw [e1, e2]
    exact hrec

/-! ### C2 -/

/-- C2: the retry loop invokes the executor at most `numRetries` = 10 times per
call, and when the executor fails with the same transient error on every
attempt, the inline `JobSetStateIfRunning` returns that error after exactly 10
attempts, leaves the database untouched and emits no subscriber message. -/
theorem C2_retry_cap_and_exhaustion :
    (∀ (exec : JobExecutor) (db : List RiverJob), (withRetries exec db).2.1 ≤ numRetries) ∧
    (∀ (msg : String) (db : List RiverJob),
      inlineJobSetStateIfRunning (fun _ db0 => (db0, Except.error (ExecError.transient msg))) db =
        { db := db, attempts := numRetries, err := some (ExecError.transient msg),
          emitted := [] }) := by
  constructor
  · intro exec db
    have h := retryAttempts_attempt_le exec numRetries 1 db
    simpa [withRetries, numRetries] using h
  · intro msg db
    rfl

/-! ### C3 -/

/-- C3: a terminal executor error (canceled context or closed pool) on the
first attempt stops the retry loop after exactly one executor call; the
database is untouched (so a running job stays `running`), the inline variant
surfaces the error to the caller and emits nothing, while the async and batch
variants return `nil` at acceptance. -/
theorem C3_terminal_error_one_attempt (db : List RiverJob) (e : ExecError)
    (he : e.isTerminal = true) :
    inlineJobSetStateIfRunning (fun _ db0 => (db0, Except.error e)) db =
      { db := db, attempts := 1, err := some e, emitted := [] } ∧
    (∀ (c : Nat) (s : AsyncState), AsyncReachable c s → ∀ q ∈ s.accepted, q.2 = none) ∧
    (∀ (s : BatchState) (id : Int) (tr : JobSetStateIfRunningParams)
        (s' : BatchState) (r : Option ExecError),
      batchAccept s id tr = some (s', r) → r = none) := by
  refine ⟨?_, ?_, ?_⟩
  · have h1 : withRetries (fun _ db0 => (db0, Except.error e)) db = (db, 1, Except.error e) := by
      have h := retryAttempts_terminal (fun _ db0 => (db0, Except.error e)) 1 9 db db e rfl he
      simpa [withRetries, numRetries] using h
    simp [inlineJobSetStateIfRunning, h1]
  · intro c s h
    induction h with
    | base =>
      intro q hq
      simp [AsyncState.mkInit] at hq
    | step hr hstep ih =>
      cases hstep with
      | accept id hlt =>
        intro q hq
        rcases List.mem_append.mp hq with hq | hq
        · exact ih q hq
        · simp at hq
          simp [hq]
      | finish id hmem =>
        intro q hq
        exact ih q hq
  · intro s id tr s' r h
    rw [batchAccept] at h
    by_cases hb : s.maxBacklog ≤ s.pending.length
    · rw [if_pos hb] at h
      exact absurd h (by simp)
    · rw [if_neg hb] at h
      exact (congrArg Prod.snd (Option.some.inj h)).symm

/-- C3 (witness): canceled-context executor failure on a concrete database. -/
theorem C3_terminal_error_one_attempt_witness :
    inlineJobSetStateIfRunning (fun _ db0 => (db0, Except.error ExecError.canceled))
        [mkRunningJob 1] =
      { db := [mkRunningJob 1], attempts := 1, err := some ExecError.canceled,
        emitted := [] } :=
  (C3_terminal_error_one_attempt [mkRunningJob 1] ExecError.canceled rfl).1

/-! ### C4 -/

/-- C4: when the executor fails with transient errors on the first `failures`
attempts (fewer than the budget of 10) and then succeeds, the accepted
`Completed` transition is persisted — the job reaches state `completed` in the
table — and the subscriber message carrying the updated row is emitted. -/
theorem C4_transient_then_success (failures : Nat) (hf : failures < numRetries)
    (msg : String) (finalizedAt : Nat) (db : List RiverJob) (j : RiverJob)
    (hfind : db.find? (fun r => r.id == j.id) = some j)
    (hrun : j.state = RiverJobState.running) :
    inlineJobSetStateIfRunning (flakyCompleteExec failures msg j.id finalizedAt) db =
      { db := jobSetCompleteIfRunningManyTable db [(j.id, finalizedAt)]
        attempts := failures + 1
        err := none
        emitted := [[jobSetCompleteIfRunningManyUpdate finalizedAt j]] } ∧
    (jobSetCompleteIfRunningManyTable db [(j.id, finalizedAt)]).find?
        (fun r => r.id == j.id) = some (jobSetCompleteIfRunningManyUpdate finalizedAt j) := by
  have hrows : jobSetCompleteIfRunningManyRows db [(j.id, finalizedAt)] =
      [jobSetCompleteIfRunningManyUpdate finalizedAt j] := by
    simp [jobSetCompleteIfRunningManyRows, jobSetCompleteIfRunningManyRet, hfind, hrun]
  have hskip : retryAttempts (flakyCompleteExec failures msg j.id finalizedAt) 1 numRetries db =
      retryAttempts (flakyCompleteExec failures msg j.id finalizedAt) (1 + failures)
        (numRetries - failures) db := by
    refine retryAttempts_skip _ msg failures 1 numRetries db hf ?_
    intro i hi
    simp [flakyCompleteExec, show 1 + i ≤ failures by omega]
  obtain ⟨m, hm⟩ : ∃ m, numRetries - failures = m + 1 :=
    ⟨numRetries - failures - 1, by omega⟩
  have hsucc : flakyCompleteExec failures msg j.id finalizedAt (1 + failures) db =
      (jobSetCompleteIfRunningManyTable db [(j.id, finalizedAt)],
        Except.ok [jobSetCompleteIfRunningManyUpdate finalizedAt j]) := by
    rw [← hrows]
    simp [flakyCompleteExec, completeExec, show ¬ (1 + failures ≤ failures) by omega]
  have hrun2 : withRetries (flakyCompleteExec failures msg j.id finalizedAt) db =
      (jobSetCompleteIfRunningManyTable db [(j.id, finalizedAt)], 1 + failures,
        Except.ok [jobSetCompleteIfRunningManyUpdate finalizedAt j]) := by
    rw [withRetries, hskip, hm]
    exact retryAttempts_ok _ _ _ _ _ _ hsucc
  constructor
  · simp [inlineJobSetStateIfRunning, hrun2, Nat.add_comm]
  · rw [jobSetCompleteIfRunningManyTable,
      find?_map_of_id _ (jobSetCompleteIfRunningManyRow_id [(j.id, finalizedAt)]) db j.id,
      hfind]
    simp [jobSetCompleteIfRunningManyRow, hrun]

/-- C4 (witness): two transient failures followed by success on the third
attempt complete a concrete running job and emit its update. -/
theorem C4_transient_then_success_witness :
    inlineJobSetStateIfRunning (flakyCompleteExec 2 "boom" 1 5) [mkRunningJob 1] =
      { db := jobSetCompleteIfRunningManyTable [mkRunningJob 1] [(1, 5)]
        attempts := 3
        err := none
        emitted := [[jobSetCompleteIfRunningManyUpdate 5 (mkRunningJob 1)]] } :=
  (C4_transient_then_success 2 (by decide) "boom" 5 [mkRunningJob 1] (mkRunningJob 1)
    (by decide) (by decide)).1

/-! ### Lifecycle lemmas -/

/-- `stepCmd` drives the phase exactly as `phaseStep` does. -/
theorem stepCmd_phase (s : CompleterState) (c : CompleterCmd) :
    (stepCmd s c).phase = phaseStep s.phase c := by
  cases c with
  | start =>
    simp only [stepCmd, phaseStep]
    split <;> rfl
  | accept id finalizedAt =>
    simp only [stepCmd, phaseStep]
    split <;> rfl
  | stop =>
    simp only [stepCmd, phaseStep]
    split <;> rfl
  | resetChan ch =>
    simp only [stepCmd, phaseStep]
    split <;> rfl

/-- One command closes the subscribe channel exactly when it is a `Stop`
executed in the `Running` phase. -/
theorem stepCmd_closedChans (s : CompleterState) (c : CompleterCmd) :
    (stepCmd s c).closedChans.length =
      s.closedChans.length +
        (if c = CompleterCmd.stop ∧ s.phase = Phase.running then 1 else 0) := by
  cases c with
  | start =>
    simp only [stepCmd]
    split <;> simp
  | accept id finalizedAt =>
    simp only [stepCmd]
    split <;> simp
  | stop =>
    simp only [stepCmd]
    by_cases h : s.phase = Phase.running
    · rw [if_pos h]
      simp [h]
    · rw [if_neg h]
      simp [h]
  | resetChan ch =>
    simp only [stepCmd]
    split <;> simp

/-- Along any command run, the number of closed subscribe channels grows by
exactly the number of effective `Stop` commands. -/
theorem runCmds_closedChans (cmds : List CompleterCmd) :
    ∀ s : CompleterState,
      (runCmds s cmds).closedChans.length = s.closedChans.length + countCloses s.phase cmds := by
  induction cmds with
  | nil =>
    intro s
    simp [runCmds, countCloses]
  | cons c cs ih =>
    intro s
    rw [show runCmds s (c :: cs) = runCmds (stepCmd s c) cs from rfl]
    rw [ih (stepCmd s c)]
    rw [show countCloses s.phase (c :: cs) =
      (if c = CompleterCmd.stop ∧ s.phase = Phase.running then 1 else 0) +
        countCloses (phaseStep s.phase c) cs from rfl]
    rw [stepCmd_closedChans, stepCmd_phase]
    omega

/-! ### C7 -/

/-- C7: the subscribe channel is closed exactly once per completed start/stop
cycle — along any command run the closed-channel count grows by exactly the
number of `Stop` commands executed while running — and in the restart
scenario (start, accept, stop, swap channel, start, accept, stop) both jobs
are persisted, the first cycle's update goes out on the old channel, the
second cycle's update goes out on the new channel and never on the old one. -/
theorem C7_subscribe_channel_lifecycle :
    (∀ (s : CompleterState) (cmds : List CompleterCmd),
      (runCmds s cmds).closedChans.length = s.closedChans.length + countCloses s.phase cmds) ∧
    c7Final.closedChans = [1, 2] ∧
    c7Final.db.map RiverJob.state = [RiverJobState.completed, RiverJobState.completed] ∧
    c7Final.emitted =
      [(1, [jobSetCompleteIfRunningManyUpdate 5 (mkRunningJob 10)]),
        (2, [jobSetCompleteIfRunningManyUpdate 6 (mkRunningJob 20)])] ∧
    (c7Final.emitted.all fun q => (q.2.all fun row => !(row.id == 20)) || (q.1 == 2)) = true := by
  refine ⟨fun s cmds => runCmds_closedChans cmds s, ?_, ?_, ?_, ?_⟩ <;> decide

/-! ### C9 -/

/-- C9: in the async variant with concurrency `c`, every reachable state has
at most `c` executor calls in flight, and when exactly `c` are in flight no
further transition can be accepted — an additional accept step exists only
after an in-flight call finishes and releases its permit. -/
theorem C9_async_bounded_concurrency (c : Nat) (s : AsyncState) (h : AsyncReachable c s) :
    s.inFlight.length ≤ c ∧
    (s.inFlight.length = c →
      ∀ (id : Int) (s' : AsyncState), ¬ AsyncStep c s (AsyncLabel.accept id) s') := by
  have hlen : s.inFlight.length ≤ c := by
    induction h with
    | base => simp [AsyncState.mkInit]
    | step hr hstep ih =>
      cases hstep with
      | accept id hlt =>
        simpa using hlt
      | finish id hmem =>
        show (List.erase _ id).length ≤ c
        rw [List.length_erase_of_mem hmem]
        omega
  refine ⟨hlen, fun hfull id s' hstep => ?_⟩
  cases hstep with
  | accept id2 hlt => omega

/-- C9 (witness): with concurrency 2, the state reached after two accepts has
two calls in flight — within the bound. -/
theorem C9_async_bounded_concurrency_witness :
    ({ inFlight := [1, 0], accepted := [(0, none), (1, none)], finished := [] }
        : AsyncState).inFlight.length ≤ 2 :=
  (C9_async_bounded_concurrency 2 _
    (AsyncReachable.step
      (AsyncReachable.step AsyncReachable.base
        (AsyncStep.accept AsyncState.mkInit 0 (by decide)))
      (AsyncStep.accept _ 1 (by decide)))).1

/-! ### C8 helper lemmas -/

/-- Under a scripted executor the retry loop either fails leaving the database
untouched, or succeeds having applied the singleton `Completed` batch to the
database it was given (failing attempts never modify it). -/
theorem retryAttempts_scripted (a : AcceptedTransition) :
    ∀ (fuel attempt : Nat) (db : List RiverJob),
      (∃ n e, retryAttempts (scriptedExec a) attempt fuel db = (db, n, Except.error e)) ∨
      (∃ n, retryAttempts (scriptedExec a) attempt fuel db =
        (jobSetCompleteIfRunningManyTable db [(a.id, a.finalizedAt)], n,
          Except.ok (jobSetCompleteIfRunningManyRows db [(a.id, a.finalizedAt)]))) := by
  intro fuel
  induction fuel with
  | zero =>
    intro attempt db
    left
    exact ⟨attempt - 1, ExecError.transient "no attempt", rfl⟩
  | succ f ih =>
    intro attempt db
    rcases hs : a.script attempt with _ | e
    · right
      refine ⟨attempt, ?_⟩
      have hx : scriptedExec a attempt db =
          (jobSetCompleteIfRunningManyTable db [(a.id, a.finalizedAt)],
            Except.ok (jobSetCompleteIfRunningManyRows db [(a.id, a.finalizedAt)])) := by
        simp [scriptedExec, hs, completeExec]
      exact retryAttempts_ok _ _ _ _ _ _ hx
    · have hx : scriptedExec a attempt db = (db, Except.error e) := by
        simp [scriptedExec, hs]
      by_cases ht : e.isTerminal = true
      · left
        exact ⟨attempt, e, retryAttempts_terminal _ _ _ _ _ _ hx ht⟩
      · rcases f with _ | f2
        · left
          refine ⟨attempt, e, ?_⟩
          simp [retryAttempts, hx, ht]
        · have hstep : retryAttempts (scriptedExec a) attempt (f2 + 1 + 1) db =
              retryAttempts (scriptedExec a) (attempt + 1) (f2 + 1) db := by
            simp [retryAttempts, hx, ht]
          rw [hstep]
          exact ih (attempt + 1) db

/-- An inline call through a scripted executor either surfaces an error with
the database untouched, or surfaces none, applies the `Completed` batch and
emits the returned rows as one message (none when there are no rows). -/
theorem inlineScripted_cases (a : AcceptedTransition) (db : List RiverJob) :
    ((inlineJobSetStateIfRunning (scriptedExec a) db).err ≠ none ∧
      (inlineJobSetStateIfRunning (scriptedExec a) db).db = db) ∨
    ((inlineJobSetStateIfRunning (scriptedExec a) db).err = none ∧
      (inlineJobSetStateIfRunning (scriptedExec a) db).db =
        jobSetCompleteIfRunningManyTable db [(a.id, a.finalizedAt)] ∧
      (inlineJobSetStateIfRunning (scriptedExec a) db).emitted =
        (if (jobSetCompleteIfRunningManyRows db [(a.id, a.finalizedAt)]).isEmpty then []
          else [jobSetCompleteIfRunningManyRows db [(a.id, a.finalizedAt)]])) := by
  rcases retryAttempts_scripted a numRetries 1 db with ⟨n, e, h⟩ | ⟨n, h⟩
  · left
    simp [inlineJobSetStateIfRunning, withRetries, h]
  · right
    simp [inlineJobSetStateIfRunning, withRetries, h]

/-- A job id present in the table is still present after a
`JobSetCompleteIfRunningMany` batch. -/
theorem presence_table (db : List RiverJob) (batch : List (Int × Nat)) (i : Int)
    (h : ∃ j ∈ db, j.id = i) :
    ∃ j' ∈ jobSetCompleteIfRunningManyTable db batch, j'.id = i := by
  rcases h with ⟨j, hj, hid⟩
  exact ⟨jobSetCompleteIfRunningManyRow batch j, List.mem_map_of_mem _ hj,
    by rw [jobSetCompleteIfRunningManyRow_id, hid]⟩

/-- When the table has a row for the id, the returned rows of a singleton
`JobSetCompleteIfRunningMany` batch contain a row with that id. -/
theorem rows_of_present (db : List RiverJob) (i : Int) (finalizedAt : Nat)
    (h : ∃ j ∈ db, j.id = i) :
    ∃ row ∈ jobSetCompleteIfRunningManyRows db [(i, finalizedAt)], row.id = i := by
  have hsome : (db.find? (fun r => r.id == i)).isSome := by
    rw [List.find?_isSome]
    rcases h with ⟨j, hj, hid⟩
    exact ⟨j, hj, by simp [hid]⟩
  rcases hopt : db.find? (fun r => r.id == i) with _ | j
  · rw [hopt] at hsome
    simp at hsome
  · have hid : j.id = i := by
      have hp := List.find?_some hopt
      simpa using hp
    by_cases hr : j.state = RiverJobState.running
    · refine ⟨jobSetCompleteIfRunningManyUpdate finalizedAt j, ?_, ?_⟩
      · rw [jobSetCompleteIfRunningManyRows]
        refine List.mem_filterMap.mpr ⟨(i, finalizedAt), by simp, ?_⟩
        simp [jobSetCompleteIfRunningManyRet, hopt, hr]
      · simpa [jobSetCompleteIfRunningManyUpdate] using hid
    · refine ⟨j, ?_, hid⟩
      rw [jobSetCompleteIfRunningManyRows]
      refine List.mem_filterMap.mpr ⟨(i, finalizedAt), by simp, ?_⟩
      simp [jobSetCompleteIfRunningManyRet, hopt, hr]

/-! ### C8 -/

/-- C8 (counterexample): "exactly one of" fails, at three concrete inputs.
First, an accepted transition whose executor fails terminally on attempt 1
produces two of the listed outcomes at once: the terminal error is surfaced
to the caller AND the job's database state is still `running` (while no
subscriber message is emitted).  Second, an accepted transition whose job id
has no row in the database produces zero of the outcomes: the executor
succeeds with zero rows, so no message is emitted, no error is surfaced, and
no row with that id is `running` — a silent drop.  Third, an accepted
transition for a job that had already completed, with transient retry
exhaustion, also produces zero of the outcomes as literally stated: the
surfaced error is not terminal, the job is not `running`, and nothing is
emitted. -/
theorem C8_counterexample :
    ((processAccepted [mkRunningJob 1] [c8FailingTransition]).2 =
        [(1, { db := [mkRunningJob 1], attempts := 1, err := some ExecError.canceled,
               emitted := [] })] ∧
      stillRunning (processAccepted [mkRunningJob 1] [c8FailingTransition]).1 1 ∧
      ¬ outcomeEmits { db := [mkRunningJob 1], attempts := 1,
                       err := some ExecError.canceled, emitted := [] } 1) ∧
    ((processAccepted [mkRunningJob 1] [c8AbsentIdTransition]).2 =
        [(2, { db := [mkRunningJob 1], attempts := 1, err := none, emitted := [] })] ∧
      ¬ stillRunning (processAccepted [mkRunningJob 1] [c8AbsentIdTransition]).1 2 ∧
      ¬ outcomeEmits { db := [mkRunningJob 1], attempts := 1, err := none,
                       emitted := [] } 2) ∧
    ((processAccepted [c8CompletedJob] [c8TransientTransition]).2 =
        [(3, { db := [c8CompletedJob], attempts := numRetries,
               err := some (ExecError.transient "boom"), emitted := [] })] ∧
      (ExecError.transient "boom").isTerminal = false ∧
      ¬ stillRunning (processAccepted [c8CompletedJob] [c8TransientTransition]).1 3 ∧
      ¬ outcomeEmits { db := [c8CompletedJob], attempts := numRetries,
                       err := some (ExecError.transient "boom"), emitted := [] } 3) := by
  refine ⟨⟨rfl, ⟨mkRunningJob 1, List.mem_cons_self _ _, rfl, rfl⟩, ?_⟩,
    ⟨rfl, ?_, ?_⟩, ⟨rfl, rfl, ?_, ?_⟩⟩
  · rintro ⟨msg, hmsg, -⟩
    simp at hmsg
  · rintro ⟨j, hj, hid, -⟩
    have hj2 : j ∈ [mkRunningJob 1] := hj
    simp at hj2
    rw [hj2] at hid
    exact absurd hid (by decide)
  · rintro ⟨msg, hmsg, -⟩
    simp at hmsg
  · rintro ⟨j, hj, hid, hst⟩
    have hj2 : j ∈ [c8CompletedJob] := hj
    simp at hj2
    rw [hj2] at hst
    exact absurd hst (by decide)
  · rintro ⟨msg, hmsg, -⟩
    simp at hmsg

/-- C8 (amended): `Stop` drains — every accepted transition is processed
before it returns (one outcome per accepted transition) — and every accepted
transition whose job id has a row in the database has produced at least one
of: a subscriber message carrying its job id, a job still in the `running`
state, or an error surfaced to the caller. -/
theorem C8_drain_outcomes (db0 : List RiverJob) (accepted : List AcceptedTransition) :
    (processAccepted db0 accepted).2.length = accepted.length ∧
    (∀ p ∈ (processAccepted db0 accepted).2, (∃ j ∈ db0, j.id = p.1) →
      outcomeEmits p.2 p.1 ∨ stillRunning (processAccepted db0 accepted).1 p.1 ∨
        p.2.err ≠ none) := by
  induction accepted generalizing db0 with
  | nil =>
    refine ⟨rfl, ?_⟩
    intro p hp
    simp [processAccepted] at hp
  | cons a rest ih =>
    refine ⟨?_, ?_⟩
    · show ((a.id, inlineJobSetStateIfRunning (scriptedExec a) db0) ::
        (processAccepted (inlineJobSetStateIfRunning (scriptedExec a) db0).db rest).2).length =
          rest.length + 1
      rw [List.length_cons, (ih (inlineJobSetStateIfRunning (scriptedExec a) db0).db).1]
    · intro p hp hpresent
      have hp2 : p = (a.id, inlineJobSetStateIfRunning (scriptedExec a) db0) ∨
          p ∈ (processAccepted (inlineJobSetStateIfRunning (scriptedExec a) db0).db rest).2 :=
        List.mem_cons.mp hp
      rcases inlineScripted_cases a db0 with ⟨hne, hdb⟩ | ⟨hok, hdb, hem⟩
      · rcases hp2 with hp2 | hp2
        · subst hp2
          exact Or.inr (Or.inr hne)
        · have hpres2 : ∃ j ∈ (inlineJobSetStateIfRunning (scriptedExec a) db0).db,
              j.id = p.1 := by
            rw [hdb]
            exact hpresent
          exact (ih (inlineJobSetStateIfRunning (scriptedExec a) db0).db).2 p hp2 hpres2
      · rcases hp2 with hp2 | hp2
        · subst hp2
          left
          rcases rows_of_present db0 a.id a.finalizedAt hpresent with ⟨row, hrow, hrowid⟩
          have hnonempty :
              ¬ (jobSetCompleteIfRunningManyRows db0 [(a.id, a.finalizedAt)]).isEmpty = true := by
            simp only [List.isEmpty_iff]
            exact List.ne_nil_of_mem hrow
          rw [if_neg hnonempty] at hem
          exact ⟨jobSetCompleteIfRunningManyRows db0 [(a.id, a.finalizedAt)],
            by rw [hem]; exact List.mem_cons_self _ _, row, hrow, hrowid⟩
        · have hpres2 : ∃ j ∈ (inlineJobSetStateIfRunning (scriptedExec a) db0).db,
              j.id = p.1 := by
            rw [hdb]
            exact presence_table db0 [(a.id, a.finalizedAt)] p.1 hpresent
          exact (ih (inlineJobSetStateIfRunning (scriptedExec a) db0).db).2 p hp2 hpres2

/-- C8 (witness): a successful accepted transition on a running job satisfies
the trichotomy — its subscriber message carries the job id. -/
theorem C8_drain_outcomes_witness :
    outcomeEmits (inlineJobSetStateIfRunning (scriptedExec c8OkTransition) [mkRunningJob 1]) 1 ∨
    stillRunning (processAccepted [mkRunningJob 1] [c8OkTransition]).1 1 ∨
    (inlineJobSetStateIfRunning (scriptedExec c8OkTransition) [mkRunningJob 1]).err ≠ none :=
  (C8_drain_outcomes [mkRunningJob 1] [c8OkTransition]).2
    (1, inlineJobSetStateIfRunning (scriptedExec c8OkTransition) [mkRunningJob 1])
    (List.mem_cons_self _ _)
    ⟨mkRunningJob 1, List.mem_cons_self _ _, rfl⟩
